import Mathlib

/-!
Verification of the anomaly-detection core of the Trade-Assistant repository
(src/python/bvmt/anomaly.py with models from the shared models module).

Shallow embedding conventions:
  * Python floats are modelled as exact rationals (ℚ); Python ints as ℤ/ℕ.
  * statistics.stdev computes the square root of the sample variance; since
    square roots are irrational in general, every function that needs a
    standard deviation takes an explicit argument f : ℚ → ℚ standing for the
    square-root routine, and theorems hypothesise IsSqrtOf (f v) v at the
    variance actually used.  Witnesses instantiate f at inputs whose variance
    is a perfect rational square.
  * datetime.now() is an external input; functions that read the clock take
    the formatted time string as an argument named now.
  * Numeric string formatting (f-string payloads such as ":.1f") is idealised
    by fq, which renders a rational as "num/den"; only the non-numeric parts
    of messages matter for the properties below.
  * Python dicts built by counting (by_type, by_severity, stock_counts) are
    modelled as insertion-ordered association lists (List (String × Nat)).
-/

-- ─── Configuration constants (src/python/bvmt/config.py) ───────────────

def MIN_HISTORY : Nat := 3

def VOLUME_SIGMA_THRESHOLD : ℚ := 3

def PRICE_CHANGE_THRESHOLD : ℚ := 5

/-- Source name ends in RATIO (ORDER IMBALANCE threshold = 5.0). -/
def ORDER_IMBALANCE_LIMIT : ℚ := 5

def SPREAD_SIGMA_THRESHOLD : ℚ := 3

/-- deque(maxlen=200) capacity of each per-security history buffer. -/
def HISTORY_CAP : Nat := 200

-- ─── Data model (models module: StockData, StockSnapshot, Alert, report) ─

/-- Flat single-stock market data used by the stateless detector
(models.StockData; only scalar fields, all present in the source). -/
structure StockData where
  isin : String := ""
  valeur : String := ""
  ticker : String := ""
  groupe : String := ""
  statut : String := ""
  ord_a : ℤ := 0
  qty_a : ℤ := 0
  achat : ℚ := 0
  vente : ℚ := 0
  qty_v : ℤ := 0
  ord_v : ℤ := 0
  reference : ℚ := 0
  cto : ℚ := 0
  vto : ℚ := 0
  qto : ℚ := 0
  ouverture : ℚ := 0
  dernier : ℚ := 0
  variation : ℚ := 0
  dern_qty : ℤ := 0
  quantite : ℤ := 0
  capitalisation : ℚ := 0
  p_haut : ℚ := 0
  p_bas : ℚ := 0
  s_haut : ℚ := 0
  s_bas : ℚ := 0
  heure : String := ""
  deriving DecidableEq

/-- One security at one poll instant (models.StockSnapshot). -/
structure StockSnapshot where
  timestamp : String := ""
  isin : String := ""
  valeur : String := ""
  ticker : String := ""
  last : ℚ := 0
  close : ℚ := 0
  change : ℚ := 0
  volume : ℤ := 0
  caps : ℚ := 0
  ask : ℚ := 0
  bid : ℚ := 0
  ask_qty : ℤ := 0
  bid_qty : ℤ := 0
  ask_ord : ℤ := 0
  bid_ord : ℤ := 0
  high : ℚ := 0
  low : ℚ := 0
  status : String := ""
  cto : ℚ := 0
  vto : ℚ := 0
  deriving DecidableEq

/-- Immutable detection result (models.Alert).  The severity and
anomaly_type fields hold the string values of the corresponding enums. -/
structure Alert where
  timestamp : String
  isin : String
  valeur : String
  anomaly_type : String
  severity : String
  message : String
  current_value : ℚ
  threshold : ℚ
  details : String := ""
  deriving DecidableEq

/-- Summary report (models.AnomalyReport); by_type / by_severity are the
insertion-ordered frequency maps, top_flagged the (valeur, count) pairs. -/
structure AnomalyReport where
  timestamp : String
  total_alerts : Nat
  alerts : List Alert
  by_type : List (String × Nat)
  by_severity : List (String × Nat)
  top_flagged : List (String × Nat)
  deriving DecidableEq

-- ─── Numeric helpers ────────────────────────────────────────────────────

/-- Idealised rendering of a rational inside a message string. -/
def fq (q : ℚ) : String := toString q.num ++ "/" ++ toString q.den

/-- s is the exact square root of v. -/
def IsSqrtOf (s v : ℚ) : Prop := 0 ≤ s ∧ s * s = v

instance (s v : ℚ) : Decidable (IsSqrtOf s v) := by
  unfold IsSqrtOf; infer_instance

/-- Round-half-to-even to an integer (model of Python round on exact values). -/
def roundHE (x : ℚ) : ℤ :=
  let f := ⌊x⌋
  let r := x - f
  if r < 1 / 2 then f
  else if 1 / 2 < r then f + 1
  else if f % 2 = 0 then f else f + 1

/-- Model of Python round(x, 2). -/
def round2 (x : ℚ) : ℚ := (roundHE (100 * x) : ℚ) / 100

/-- statistics.mean on a list of exact values. -/
def listMean (l : List ℚ) : ℚ := l.sum / l.length

/-- Sample variance Σ (x − mean)² / (n − 1); statistics.stdev is its
square root. -/
def sVar (l : List ℚ) : ℚ :=
  ((l.map (fun x => (x - listMean l) ^ 2)).sum) / ((l.length : ℚ) - 1)

-- ─── Report aggregation (shared tail of detect_anomalies / get_report) ──

/-- Increment the count of key k in an insertion-ordered association list
(model of a Python defaultdict(int) counter update). -/
def bumpKey (k : String) : List (String × Nat) → List (String × Nat)
  | [] => [(k, 1)]
  | (k', n) :: rest =>
      if k' = k then (k', n + 1) :: rest else (k', n) :: bumpKey k rest

/-- Frequency map of f over the alerts, in insertion order. -/
def countsBy (f : Alert → String) (l : List Alert) : List (String × Nat) :=
  l.foldl (fun acc a => bumpKey (f a) acc) []

/-- Total-count lookup with default 0 (Python dict lookup). -/
def lookupD (m : List (String × Nat)) (k : String) : Nat :=
  match m with
  | [] => 0
  | (k', n) :: rest => if k' = k then n else lookupD rest k

/-- Stable insertion of a pair into a count-descending list; the inserted
element precedes elements of equal count, matching the stability of
Python sorted with key -count. -/
def insCountDesc (x : String × Nat) : List (String × Nat) → List (String × Nat)
  | [] => [x]
  | y :: ys => if x.2 < y.2 then y :: insCountDesc x ys else x :: y :: ys

/-- Stable sort by count descending (Python sorted, key -count). -/
def sortCountDesc (l : List (String × Nat)) : List (String × Nat) :=
  l.foldr insCountDesc []

/-- The report-building block that appears verbatim at the end of both
detect_anomalies and AnomalyEngine.get_report in the source. -/
def aggregate (now : String) (alerts : List Alert) : AnomalyReport :=
  { timestamp := now
    total_alerts := alerts.length
    alerts := alerts
    by_type := countsBy (fun a => a.anomaly_type) alerts
    by_severity := countsBy (fun a => a.severity) alerts
    top_flagged := (sortCountDesc (countsBy (fun a => a.valeur) alerts)).take 10 }

-- ─── Stateless single-snapshot analysis (detect_anomalies) ──────────────

/-- Cross-sectional volume-spike alerts of detect_anomalies (block 1). -/
def statelessVolumeAlerts (f : ℚ → ℚ) (now : String)
    (active : List StockData) : List Alert :=
  let volumes := active.map (fun s => (s.quantite : ℚ))
  if 2 ≤ volumes.length then
    let mean_v := listMean volumes
    let std_v := f (sVar volumes)
    if 0 < std_v then
      let threshold := mean_v + VOLUME_SIGMA_THRESHOLD * std_v
      (active.map (fun s =>
        if threshold < (s.quantite : ℚ) then
          let z := ((s.quantite : ℚ) - mean_v) / std_v
          [{ timestamp := now, isin := s.isin, valeur := s.valeur
             anomaly_type := "VOLUME_SPIKE"
             severity := if 5 < z then "CRITICAL" else "WARNING"
             message := "Pic de volume: " ++ fq (s.quantite : ℚ) ++ " (z=" ++ fq z ++ "σ)"
             current_value := (s.quantite : ℚ)
             threshold := threshold
             details := "Moy=" ++ fq mean_v ++ " Std=" ++ fq std_v ++ " Dernier=" ++ fq s.dernier }]
        else [])).flatten
    else []
  else []

/-- Fixed-threshold price-variation alerts of detect_anomalies (block 2). -/
def statelessPriceAlerts (now : String) (active : List StockData) : List Alert :=
  (active.map (fun s =>
    let pct := |s.variation|
    if PRICE_CHANGE_THRESHOLD ≤ pct then
      [{ timestamp := now, isin := s.isin, valeur := s.valeur
         anomaly_type := "PRICE_ANOMALY"
         severity := if 8 ≤ pct then "CRITICAL" else "WARNING"
         message := "Prix anormal: " ++ (if 0 < s.variation then "HAUSSE" else "BAISSE")
                      ++ " de " ++ fq pct ++ "%"
         current_value := pct
         threshold := PRICE_CHANGE_THRESHOLD
         details := "Réf=" ++ fq s.reference ++ " Dernier=" ++ fq s.dernier
                      ++ " P.Haut=" ++ fq s.p_haut ++ " P.Bas=" ++ fq s.p_bas }]
    else [])).flatten

/-- The sell-pressure (VENTE) alert of the stateless imbalance check. -/
def venteStatelessAlert (now : String) (s : StockData) : Alert :=
  { timestamp := now, isin := s.isin, valeur := s.valeur
    anomaly_type := "ORDER_IMBALANCE"
    severity := "WARNING"
    message := "Déséquilibre: pression VENTE (ratio "
                 ++ fq ((s.qty_v : ℚ) / (s.qty_a : ℚ)) ++ "x)"
    current_value := round2 ((s.qty_v : ℚ) / (s.qty_a : ℚ))
    threshold := ORDER_IMBALANCE_LIMIT
    details := "Qté.A=" ++ fq (s.qty_a : ℚ) ++ " Qté.V=" ++ fq (s.qty_v : ℚ) }

/-- The buy-pressure (ACHAT) alert of the stateless imbalance check. -/
def achatStatelessAlert (now : String) (s : StockData) : Alert :=
  { timestamp := now, isin := s.isin, valeur := s.valeur
    anomaly_type := "ORDER_IMBALANCE"
    severity := "WARNING"
    message := "Déséquilibre: pression ACHAT (ratio "
                 ++ fq ((s.qty_a : ℚ) / (s.qty_v : ℚ)) ++ "x)"
    current_value := round2 ((s.qty_a : ℚ) / (s.qty_v : ℚ))
    threshold := ORDER_IMBALANCE_LIMIT
    details := "Qté.A=" ++ fq (s.qty_a : ℚ) ++ " Qté.V=" ++ fq (s.qty_v : ℚ) }

/-- Order-imbalance alerts for one stock (block 3a of detect_anomalies). -/
def statelessImbAlerts (now : String) (s : StockData) : List Alert :=
  if 0 < s.qty_a ∧ 0 < s.qty_v then
    if ORDER_IMBALANCE_LIMIT < (s.qty_v : ℚ) / (s.qty_a : ℚ) then
      [venteStatelessAlert now s]
    else if ORDER_IMBALANCE_LIMIT < (s.qty_a : ℚ) / (s.qty_v : ℚ) then
      [achatStatelessAlert now s]
    else []
  else []

/-- Cross-sectional spread-anomaly alerts of detect_anomalies (block 3b). -/
def statelessSpreadAlerts (f : ℚ → ℚ) (now : String)
    (active : List StockData) : List Alert :=
  let spreads := (active.filter (fun s =>
      decide (0 < s.achat) && decide (s.achat < s.vente))).map
      (fun s => (s, (s.vente - s.achat) / s.achat * 100))
  if 3 ≤ spreads.length then
    let spread_vals := spreads.map (fun p => p.2)
    let mean_sp := listMean spread_vals
    let std_sp := f (sVar spread_vals)
    if 0 < std_sp then
      (spreads.map (fun p =>
        let z := (p.2 - mean_sp) / std_sp
        if SPREAD_SIGMA_THRESHOLD < z then
          [{ timestamp := now, isin := p.1.isin, valeur := p.1.valeur
             anomaly_type := "SPREAD_ANOMALY"
             severity := "INFO"
             message := "Spread anormal: " ++ fq p.2 ++ "% (z=" ++ fq z ++ "σ)"
             current_value := round2 p.2
             threshold := round2 (mean_sp + SPREAD_SIGMA_THRESHOLD * std_sp)
             details := "Achat=" ++ fq p.1.achat ++ " Vente=" ++ fq p.1.vente }]
        else [])).flatten
    else []
  else []

/-- The stateless entry point detect_anomalies: runs all cross-sectional
detectors on one full-market snapshot and aggregates a report.  Securities
with no positive cumulative session volume are filtered out up front. -/
def detect_anomalies (f : ℚ → ℚ) (now : String)
    (stocks : List StockData) : AnomalyReport :=
  let active := stocks.filter (fun s => decide (0 < s.quantite))
  let alerts := statelessVolumeAlerts f now active
      ++ statelessPriceAlerts now active
      ++ (active.map (fun s => statelessImbAlerts now s)).flatten
      ++ statelessSpreadAlerts f now active
  aggregate now alerts

-- ─── Stateful streaming engine (AnomalyEngine) ─────────────────────────

/-- AnomalyEngine state: per-security rolling history (defaultdict of
deque(maxlen=200), modelled as a total function defaulting to []), the
ingest-cycle counter and the accumulated alerts. -/
structure EngineState where
  history : String → List StockSnapshot
  snapshot_count : Nat
  alerts : List Alert

/-- AnomalyEngine.__init__. -/
def engineInit : EngineState :=
  { history := fun _ => [], snapshot_count := 0, alerts := [] }

/-- deque(maxlen=cap).append: drop the oldest entry once full. -/
def appendCap (cap : Nat) (l : List StockSnapshot) (x : StockSnapshot) :
    List StockSnapshot :=
  if l.length < cap then l ++ [x] else l.drop 1 ++ [x]

/-- The recording loop of ingest: append every snapshot of the batch to its
security's buffer, in batch order. -/
def recordAll (h : String → List StockSnapshot) (batch : List StockSnapshot) :
    String → List StockSnapshot :=
  batch.foldl
    (fun acc s => fun i =>
      if i = s.isin then appendCap HISTORY_CAP (acc s.isin) s else acc i) h

/-- Consecutive volume differences history[i].volume - history[i-1].volume. -/
def volDiffs : List StockSnapshot → List ℤ
  | a :: b :: rest => (b.volume - a.volume) :: volDiffs (b :: rest)
  | _ => []

/-- The valid (non-negative) volume deltas of a history window. -/
def deltasOf (hist : List StockSnapshot) : List ℤ :=
  (volDiffs hist).filter (fun d => decide (0 ≤ d))

/-- history[-2] (the snapshot preceding the most recent one). -/
def secondLast (hist : List StockSnapshot) : Option StockSnapshot :=
  hist.dropLast.getLast?

/-- current.volume - history[-2].volume if len(history) >= 2 else 0. -/
def currentDelta (cur : StockSnapshot) (hist : List StockSnapshot) : ℤ :=
  if 2 ≤ hist.length then
    cur.volume - (((secondLast hist).map (fun s => s.volume)).getD 0)
  else 0

/-- AnomalyEngine._detect_volume_spike. -/
def detectVolumeSpike (f : ℚ → ℚ) (cur : StockSnapshot)
    (hist : List StockSnapshot) : List Alert :=
  if hist.length < MIN_HISTORY + 1 then [] else
  let deltas := deltasOf hist
  if deltas.length < MIN_HISTORY then [] else
  let dq := deltas.map (fun d => ((d : ℤ) : ℚ))
  let mean_v := listMean dq
  let std_v := if 2 ≤ deltas.length then f (sVar dq) else 0
  if std_v = 0 then [] else
  let cd := currentDelta cur hist
  if cd ≤ 0 then [] else
  let z := ((cd : ℚ) - mean_v) / std_v
  if VOLUME_SIGMA_THRESHOLD < z then
    [{ timestamp := cur.timestamp, isin := cur.isin, valeur := cur.valeur
       anomaly_type := "VOLUME_SPIKE"
       severity := if 5 < z then "CRITICAL" else "WARNING"
       message := "Volume spike: " ++ fq (cd : ℚ) ++ " units (z=" ++ fq z ++ "σ)"
       current_value := (cd : ℚ)
       threshold := round2 (mean_v + VOLUME_SIGMA_THRESHOLD * std_v)
       details := "Mean=" ++ fq mean_v ++ " Std=" ++ fq std_v
                    ++ " TotalVol=" ++ fq (cur.volume : ℚ) }]
  else []

/-- The z-score the volume-spike detector computes on its success path
(none whenever one of its guards makes it return without computing z). -/
def volumeZ (f : ℚ → ℚ) (cur : StockSnapshot)
    (hist : List StockSnapshot) : Option ℚ :=
  if hist.length < MIN_HISTORY + 1 then none else
  let deltas := deltasOf hist
  if deltas.length < MIN_HISTORY then none else
  let dq := deltas.map (fun d => ((d : ℤ) : ℚ))
  let mean_v := listMean dq
  let std_v := if 2 ≤ deltas.length then f (sVar dq) else 0
  if std_v = 0 then none else
  let cd := currentDelta cur hist
  if cd ≤ 0 then none else
  some (((cd : ℚ) - mean_v) / std_v)

/-- AnomalyEngine._detect_price_anomaly. -/
def detectPriceAnomaly (cur : StockSnapshot)
    (hist : List StockSnapshot) : List Alert :=
  let a1 :=
    if 0 < cur.close ∧ 0 < cur.last then
      let pct := |cur.change|
      if PRICE_CHANGE_THRESHOLD ≤ pct then
        [{ timestamp := cur.timestamp, isin := cur.isin, valeur := cur.valeur
           anomaly_type := "PRICE_ANOMALY"
           severity := if 8 ≤ pct then "CRITICAL" else "WARNING"
           message := "Prix anormal: " ++ (if 0 < cur.change then "HAUSSE" else "BAISSE")
                        ++ " de " ++ fq pct ++ "%"
           current_value := pct
           threshold := PRICE_CHANGE_THRESHOLD
           details := "Réf=" ++ fq cur.close ++ " Dernier=" ++ fq cur.last }]
      else []
    else []
  let a2 :=
    if 2 ≤ hist.length then
      match secondLast hist with
      | some prev =>
        if 0 < prev.last ∧ 0 < cur.last then
          let rapid := |cur.last - prev.last| / prev.last * 100
          if 2 ≤ rapid then
            [{ timestamp := cur.timestamp, isin := cur.isin, valeur := cur.valeur
               anomaly_type := "RAPID_PRICE_MOVE"
               severity := "WARNING"
               message := "Mouvement rapide: " ++ fq rapid ++ "% entre 2 relevés"
               current_value := round2 rapid
               threshold := 2
               details := "Avant=" ++ fq prev.last ++ " Après=" ++ fq cur.last }]
          else []
        else []
      | none => []
    else []
  a1 ++ a2

/-- The sell-pressure (VENTE) alert of the engine imbalance check. -/
def venteImbAlert (cur : StockSnapshot) : Alert :=
  { timestamp := cur.timestamp, isin := cur.isin, valeur := cur.valeur
    anomaly_type := "ORDER_IMBALANCE"
    severity := "WARNING"
    message := "Déséquilibre ordres: pression VENTE ("
                 ++ fq ((cur.bid_qty : ℚ) / (cur.ask_qty : ℚ)) ++ "x)"
    current_value := round2 ((cur.bid_qty : ℚ) / (cur.ask_qty : ℚ))
    threshold := ORDER_IMBALANCE_LIMIT
    details := "Qté.A=" ++ fq (cur.ask_qty : ℚ) ++ " Qté.V=" ++ fq (cur.bid_qty : ℚ) }

/-- The buy-pressure (ACHAT) alert of the engine imbalance check. -/
def achatImbAlert (cur : StockSnapshot) : Alert :=
  { timestamp := cur.timestamp, isin := cur.isin, valeur := cur.valeur
    anomaly_type := "ORDER_IMBALANCE"
    severity := "WARNING"
    message := "Déséquilibre ordres: pression ACHAT ("
                 ++ fq ((cur.ask_qty : ℚ) / (cur.bid_qty : ℚ)) ++ "x)"
    current_value := round2 ((cur.ask_qty : ℚ) / (cur.bid_qty : ℚ))
    threshold := ORDER_IMBALANCE_LIMIT
    details := "Qté.A=" ++ fq (cur.ask_qty : ℚ) ++ " Qté.V=" ++ fq (cur.bid_qty : ℚ) }

/-- Order-imbalance block of AnomalyEngine._detect_suspicious_patterns. -/
def engineImbAlerts (cur : StockSnapshot) : List Alert :=
  if 0 < cur.ask_qty ∧ 0 < cur.bid_qty then
    if ORDER_IMBALANCE_LIMIT < (cur.bid_qty : ℚ) / (cur.ask_qty : ℚ) then
      [venteImbAlert cur]
    else if ORDER_IMBALANCE_LIMIT < (cur.ask_qty : ℚ) / (cur.bid_qty : ℚ) then
      [achatImbAlert cur]
    else []
  else []

/-- Spread-anomaly block of AnomalyEngine._detect_suspicious_patterns. -/
def engineSpreadAlerts (f : ℚ → ℚ) (cur : StockSnapshot)
    (hist : List StockSnapshot) : List Alert :=
  if 0 < cur.ask ∧ cur.ask < cur.bid then
    let spread_pct := (cur.bid - cur.ask) / cur.ask * 100
    let hist_spreads := ((hist.dropLast).filter (fun h =>
        decide (0 < h.ask) && decide (h.ask < h.bid))).map
        (fun h => (h.bid - h.ask) / h.ask * 100)
    if MIN_HISTORY ≤ hist_spreads.length then
      let m := listMean hist_spreads
      let s := if 2 ≤ hist_spreads.length then f (sVar hist_spreads) else 0
      if 0 < s then
        let z := (spread_pct - m) / s
        if SPREAD_SIGMA_THRESHOLD < z then
          [{ timestamp := cur.timestamp, isin := cur.isin, valeur := cur.valeur
             anomaly_type := "SPREAD_ANOMALY"
             severity := "INFO"
             message := "Spread anormal: " ++ fq spread_pct ++ "% (z=" ++ fq z ++ "σ)"
             current_value := round2 spread_pct
             threshold := round2 (m + SPREAD_SIGMA_THRESHOLD * s)
             details := "Ask=" ++ fq cur.ask ++ " Bid=" ++ fq cur.bid }]
        else []
      else []
    else []
  else []

/-- Spoofing block of AnomalyEngine._detect_suspicious_patterns: one check
per book side against the previous snapshot. -/
def engineSpoofSide (cur : StockSnapshot) (side : String)
    (curr_qty prev_qty : ℤ) : List Alert :=
  if 0 < prev_qty ∧ 0 < curr_qty then
    let r := (curr_qty : ℚ) / (prev_qty : ℚ)
    if 10 < r ∧ 1000 < curr_qty then
      [{ timestamp := cur.timestamp, isin := cur.isin, valeur := cur.valeur
         anomaly_type := "PATTERN_SUSPECT"
         severity := "CRITICAL"
         message := "Spoofing potentiel côté " ++ side ++ ": x" ++ fq r
         current_value := (curr_qty : ℚ)
         threshold := ((prev_qty * 10 : ℤ) : ℚ)
         details := "Avant=" ++ fq (prev_qty : ℚ) ++ " Après=" ++ fq (curr_qty : ℚ) }]
    else []
  else []

def engineSpoofAlerts (cur : StockSnapshot) (hist : List StockSnapshot) :
    List Alert :=
  if 2 ≤ hist.length then
    match secondLast hist with
    | some prev =>
        engineSpoofSide cur "ACHAT" cur.ask_qty prev.ask_qty
          ++ engineSpoofSide cur "VENTE" cur.bid_qty prev.bid_qty
    | none => []
  else []

/-- AnomalyEngine._detect_suspicious_patterns. -/
def detectSuspicious (f : ℚ → ℚ) (cur : StockSnapshot)
    (hist : List StockSnapshot) : List Alert :=
  engineImbAlerts cur ++ engineSpreadAlerts f cur hist ++ engineSpoofAlerts cur hist

/-- The three time-series detectors that ingest runs per snapshot. -/
def detectorSet (f : ℚ → ℚ) (cur : StockSnapshot)
    (hist : List StockSnapshot) : List Alert :=
  detectVolumeSpike f cur hist ++ detectPriceAnomaly cur hist
    ++ detectSuspicious f cur hist

/-- AnomalyEngine.ingest: record the whole batch, then (once the cycle
counter has reached MIN_HISTORY) run the detector set on every snapshot
whose security has at least MIN_HISTORY buffered entries.  Returns the new
alerts and the updated state. -/
def ingest (f : ℚ → ℚ) (st : EngineState) (batch : List StockSnapshot) :
    List Alert × EngineState :=
  let cnt := st.snapshot_count + 1
  let hist' := recordAll st.history batch
  let newAlerts :=
    if MIN_HISTORY ≤ cnt then
      (batch.map (fun snap =>
        let h := hist' snap.isin
        if MIN_HISTORY ≤ h.length then detectorSet f snap h else [])).flatten
    else []
  (newAlerts,
   { history := hist', snapshot_count := cnt, alerts := st.alerts ++ newAlerts })

/-- AnomalyEngine.get_report (the clock reading is the now argument). -/
def get_report (now : String) (st : EngineState) : AnomalyReport :=
  aggregate now st.alerts

/-- A fresh engine driven through a sequence of ingest calls. -/
def runBatches (f : ℚ → ℚ) (bss : List (List StockSnapshot)) : EngineState :=
  bss.foldl (fun st b => (ingest f st b).2) engineInit

-- ─── ingest under exception semantics ──────────────────────────────────
-- The Python per-snapshot detector loop sits inside no try/except; an
-- exception raised while evaluating the detector set for one snapshot
-- propagates out of ingest.  To reason about that control flow the loop is
-- re-stated with a detector that may fail (Except), exactly mirroring the
-- statement order of the source: recording first, then detection, with the
-- local new_alerts list extended onto self.alerts only if no snapshot threw.

def runDetsE (det : StockSnapshot → List StockSnapshot → Except String (List Alert))
    (h : String → List StockSnapshot) :
    List StockSnapshot → Except String (List Alert)
  | [] => .ok []
  | snap :: rest =>
    let hs := h snap.isin
    if MIN_HISTORY ≤ hs.length then
      match det snap hs with
      | .error e => .error e
      | .ok al =>
        match runDetsE det h rest with
        | .error e => .error e
        | .ok bl => .ok (al ++ bl)
    else runDetsE det h rest

/-- ingest with a fallible detector set: on an exception the recording and
the counter increment (already executed) persist, the accumulated alert
list is left untouched, and the error propagates to the caller. -/
def ingestE (det : StockSnapshot → List StockSnapshot → Except String (List Alert))
    (st : EngineState) (batch : List StockSnapshot) :
    EngineState × Except String (List Alert) :=
  match (if MIN_HISTORY ≤ st.snapshot_count + 1
      then runDetsE det (recordAll st.history batch) batch
      else .ok []) with
  | .ok new =>
      ({ history := recordAll st.history batch
         snapshot_count := st.snapshot_count + 1
         alerts := st.alerts ++ new },
       .ok new)
  | .error e =>
      ({ history := recordAll st.history batch
         snapshot_count := st.snapshot_count + 1
         alerts := st.alerts },
       .error e)

/-- With a detector that never throws, ingestE is exactly ingest. -/
theorem ingestE_total (f : ℚ → ℚ) (st : EngineState) (batch : List StockSnapshot) :
    ingestE (fun s h => .ok (detectorSet f s h)) st batch
      = ((ingest f st batch).2, .ok (ingest f st batch).1) := by
  have key : ∀ (h : String → List StockSnapshot) (l : List StockSnapshot),
      runDetsE (fun s hs => .ok (detectorSet f s hs)) h l
        = .ok ((l.map (fun snap =>
            if MIN_HISTORY ≤ (h snap.isin).length
            then detectorSet f snap (h snap.isin) else [])).flatten) := by
    intro h l
    induction l with
    | nil => rfl
    | cons snap rest ih =>
        by_cases hc : MIN_HISTORY ≤ (h snap.isin).length
        · simp [runDetsE, hc, ih]
        · simp [runDetsE, hc, ih]
  unfold ingestE ingest
  by_cases hc : MIN_HISTORY ≤ st.snapshot_count + 1
  · simp [hc, key]
  · simp [hc]

-- ─── Counting lemmas for the report aggregator ─────────────────────────

theorem bumpKey_sum (k : String) (m : List (String × Nat)) :
    ((bumpKey k m).map Prod.snd).sum = (m.map Prod.snd).sum + 1 := by
  induction m with
  | nil => rfl
  | cons p rest ih =>
      by_cases h : p.1 = k
      · simp [bumpKey, h]; omega
      · simp [bumpKey, h, ih]; omega

theorem countsBy_sum (f : Alert → String) (l : List Alert) :
    ((countsBy f l).map Prod.snd).sum = l.length := by
  suffices h : ∀ acc : List (String × Nat),
      (((l.foldl (fun acc a => bumpKey (f a) acc) acc)).map Prod.snd).sum
        = (acc.map Prod.snd).sum + l.length by
    simpa [countsBy] using h []
  induction l with
  | nil => intro acc; simp
  | cons a rest ih =>
      intro acc
      simp only [List.foldl_cons, ih, bumpKey_sum, List.length_cons]
      omega

theorem bumpKey_lookup (k k' : String) (m : List (String × Nat)) :
    lookupD (bumpKey k m) k' = lookupD m k' + (if k = k' then 1 else 0) := by
  induction m with
  | nil =>
      by_cases h : k = k' <;> simp [bumpKey, lookupD, h]
  | cons p rest ih =>
      by_cases h1 : p.1 = k
      · by_cases h2 : p.1 = k'
        · subst h1; subst h2; simp [bumpKey, lookupD]
        · have : ¬ k = k' := fun he => h2 (he ▸ h1)
          simp [bumpKey, lookupD, h1, h2, this]
      · by_cases h2 : p.1 = k'
        · have hk : ¬ k' = k := fun he => h1 (h2.trans he)
          have hk2 : ¬ k = k' := fun he => hk he.symm
          simp [bumpKey, lookupD, h1, h2, hk, hk2]
        · simp [bumpKey, lookupD, h1, h2, ih]

theorem countsBy_lookup (f : Alert → String) (l : List Alert) (k : String) :
    lookupD (countsBy f l) k = (l.filter (fun a => decide (f a = k))).length := by
  suffices h : ∀ acc : List (String × Nat),
      lookupD (l.foldl (fun acc a => bumpKey (f a) acc) acc) k
        = lookupD acc k + (l.filter (fun a => decide (f a = k))).length by
    simpa [countsBy, lookupD] using h []
  induction l with
  | nil => intro acc; simp
  | cons a rest ih =>
      intro acc
      by_cases h : f a = k
      · simp only [List.foldl_cons, ih, bumpKey_lookup, h, List.filter_cons,
          decide_eq_true_eq, if_pos h]
        simp [h]
        omega
      · simp only [List.foldl_cons, ih, bumpKey_lookup, h, List.filter_cons]
        simp [h]

-- ─── C3: report totals consistency ─────────────────────────────────────

/-- C3: for every engine state (via get_report) and for every stateless
detect_anomalies report, total_alerts equals the length of the alerts list,
which equals the sum of the by_severity counts and the sum of the by_type
counts, and by_type / by_severity are exact frequency maps of the alerts. -/
theorem report_totals_consistent (f : ℚ → ℚ) (now : String)
    (st : EngineState) (stocks : List StockData) :
    ((get_report now st).total_alerts = (get_report now st).alerts.length
      ∧ (((get_report now st).by_severity.map Prod.snd).sum
          = (get_report now st).alerts.length)
      ∧ (((get_report now st).by_type.map Prod.snd).sum
          = (get_report now st).alerts.length)
      ∧ (∀ k, lookupD (get_report now st).by_type k
          = ((get_report now st).alerts.filter
              (fun a => decide (a.anomaly_type = k))).length)
      ∧ (∀ k, lookupD (get_report now st).by_severity k
          = ((get_report now st).alerts.filter
              (fun a => decide (a.severity = k))).length))
    ∧ ((detect_anomalies f now stocks).total_alerts
          = (detect_anomalies f now stocks).alerts.length
      ∧ (((detect_anomalies f now stocks).by_severity.map Prod.snd).sum
          = (detect_anomalies f now stocks).alerts.length)
      ∧ (((detect_anomalies f now stocks).by_type.map Prod.snd).sum
          = (detect_anomalies f now stocks).alerts.length)
      ∧ (∀ k, lookupD (detect_anomalies f now stocks).by_type k
          = ((detect_anomalies f now stocks).alerts.filter
              (fun a => decide (a.anomaly_type = k))).length)
      ∧ (∀ k, lookupD (detect_anomalies f now stocks).by_severity k
          = ((detect_anomalies f now stocks).alerts.filter
              (fun a => decide (a.severity = k))).length)) := by
  have base : ∀ (n : String) (al : List Alert),
      (aggregate n al).total_alerts = (aggregate n al).alerts.length
      ∧ (((aggregate n al).by_severity.map Prod.snd).sum
          = (aggregate n al).alerts.length)
      ∧ (((aggregate n al).by_type.map Prod.snd).sum
          = (aggregate n al).alerts.length)
      ∧ (∀ k, lookupD (aggregate n al).by_type k
          = ((aggregate n al).alerts.filter
              (fun a => decide (a.anomaly_type = k))).length)
      ∧ (∀ k, lookupD (aggregate n al).by_severity k
          = ((aggregate n al).alerts.filter
              (fun a => decide (a.severity = k))).length) := by
    intro n al
    refine ⟨rfl, ?_, ?_, ?_, ?_⟩
    · simpa [aggregate] using countsBy_sum (fun a => a.severity) al
    · simpa [aggregate] using countsBy_sum (fun a => a.anomaly_type) al
    · intro k; simpa [aggregate] using countsBy_lookup (fun a => a.anomaly_type) al k
    · intro k; simpa [aggregate] using countsBy_lookup (fun a => a.severity) al k
  exact ⟨base now st.alerts, base now _⟩

-- ─── C8: report idempotence (corrected: the timestamp field differs) ───

/-- C8 counterexample: get_report reads the wall clock for its timestamp
field, so two calls on the same unchanged engine state need not be equal —
here the same fresh state reported at two clock readings. -/
theorem report_idempotence_cex :
    get_report "2024-01-01 10:00:00" engineInit
      ≠ get_report "2024-01-01 10:00:30" engineInit := by
  decide

/-- C8 amended: calling the report query twice without an intervening ingest
yields reports identical in every field except the timestamp (which is the
clock reading); with equal clock readings the reports are fully equal. -/
theorem report_idempotent_modulo_timestamp (now₁ now₂ : String) (st : EngineState) :
    (get_report now₁ st).total_alerts = (get_report now₂ st).total_alerts
    ∧ (get_report now₁ st).alerts = (get_report now₂ st).alerts
    ∧ (get_report now₁ st).by_type = (get_report now₂ st).by_type
    ∧ (get_report now₁ st).by_severity = (get_report now₂ st).by_severity
    ∧ (get_report now₁ st).top_flagged = (get_report now₂ st).top_flagged
    ∧ (now₁ = now₂ → get_report now₁ st = get_report now₂ st) := by
  refine ⟨rfl, rfl, rfl, rfl, rfl, fun h => by rw [h]⟩

-- ─── C9: ingest returns exactly the new alerts, append-only ────────────

/-- C9: the alert list returned by ingest is precisely what this call
appends: the post-state alert list is the prior list with the returned
alerts appended at the end, so earlier alerts are neither mutated nor
removed, and the history / counter updates do not touch them. -/
theorem ingest_alerts_append (f : ℚ → ℚ) (st : EngineState)
    (batch : List StockSnapshot) :
    (ingest f st batch).2.alerts = st.alerts ++ (ingest f st batch).1
    ∧ (ingest f st batch).2.alerts.take st.alerts.length = st.alerts := by
  constructor
  · rfl
  · simp [ingest]

-- ─── Provenance of stateless alerts (towards C10) ──────────────────────

theorem mem_statelessVolumeAlerts (f : ℚ → ℚ) (now : String)
    (active : List StockData) (a : Alert)
    (h : a ∈ statelessVolumeAlerts f now active) :
    ∃ s ∈ active, a.isin = s.isin ∧ a.valeur = s.valeur := by
  simp only [statelessVolumeAlerts] at h
  split_ifs at h with h1 h2
  · rw [List.mem_flatten] at h
    obtain ⟨l, hl, hal⟩ := h
    rw [List.mem_map] at hl
    obtain ⟨s, hs, rfl⟩ := hl
    split_ifs at hal <;>
      first
        | (simp only [List.mem_singleton] at hal
           exact ⟨s, hs, by simp [hal]⟩)
        | simp at hal
  · simp at h
  · simp at h

theorem mem_statelessPriceAlerts (now : String)
    (active : List StockData) (a : Alert)
    (h : a ∈ statelessPriceAlerts now active) :
    ∃ s ∈ active, a.isin = s.isin ∧ a.valeur = s.valeur := by
  simp only [statelessPriceAlerts] at h
  rw [List.mem_flatten] at h
  obtain ⟨l, hl, hal⟩ := h
  rw [List.mem_map] at hl
  obtain ⟨s, hs, rfl⟩ := hl
  split_ifs at hal <;>
    first
      | (simp only [List.mem_singleton] at hal
         exact ⟨s, hs, by simp [hal]⟩)
      | simp at hal

theorem mem_statelessImbAlerts (now : String) (s : StockData) (a : Alert)
    (h : a ∈ statelessImbAlerts now s) :
    a.isin = s.isin ∧ a.valeur = s.valeur := by
  simp only [statelessImbAlerts] at h
  split_ifs at h <;>
    first
      | (simp only [List.mem_singleton] at h
         exact ⟨by simp [h, venteStatelessAlert, achatStatelessAlert],
                by simp [h, venteStatelessAlert, achatStatelessAlert]⟩)
      | simp at h

theorem mem_statelessSpreadAlerts (f : ℚ → ℚ) (now : String)
    (active : List StockData) (a : Alert)
    (h : a ∈ statelessSpreadAlerts f now active) :
    ∃ s ∈ active, a.isin = s.isin ∧ a.valeur = s.valeur := by
  simp only [statelessSpreadAlerts] at h
  split_ifs at h with h1 h2
  · rw [List.mem_flatten] at h
    obtain ⟨l, hl, hal⟩ := h
    rw [List.mem_map] at hl
    obtain ⟨p, hp, rfl⟩ := hl
    rw [List.mem_map] at hp
    obtain ⟨s, hs, rfl⟩ := hp
    have hs' : s ∈ active := List.mem_of_mem_filter hs
    split_ifs at hal <;>
      first
        | (simp only [List.mem_singleton] at hal
           exact ⟨s, hs', by simp [hal]⟩)
        | simp at hal
  · simp at h
  · simp at h

-- ─── C10: the zero-volume filter covers all four stateless checks ──────

/-- C10: detect_anomalies never emits an alert for a security with
non-positive cumulative session volume: every emitted alert carries the
identity of some input stock whose quantite is strictly positive. -/
theorem stateless_zero_volume_filter (f : ℚ → ℚ) (now : String)
    (stocks : List StockData) (a : Alert)
    (ha : a ∈ (detect_anomalies f now stocks).alerts) :
    ∃ s, s ∈ stocks ∧ 0 < s.quantite ∧ a.isin = s.isin ∧ a.valeur = s.valeur := by
  have key : ∀ s ∈ stocks.filter (fun s => decide (0 < s.quantite)),
      s ∈ stocks ∧ 0 < s.quantite := by
    intro s hs
    rw [List.mem_filter, decide_eq_true_eq] at hs
    exact hs
  simp only [detect_anomalies, aggregate, List.mem_append] at ha
  rcases ha with ((h | h) | h) | h
  · obtain ⟨s, hs, hi, hv⟩ := mem_statelessVolumeAlerts f now _ a h
    exact ⟨s, (key s hs).1, (key s hs).2, hi, hv⟩
  · obtain ⟨s, hs, hi, hv⟩ := mem_statelessPriceAlerts now _ a h
    exact ⟨s, (key s hs).1, (key s hs).2, hi, hv⟩
  · rw [List.mem_flatten] at h
    obtain ⟨l, hl, hal⟩ := h
    rw [List.mem_map] at hl
    obtain ⟨s, hs, rfl⟩ := hl
    obtain ⟨hi, hv⟩ := mem_statelessImbAlerts now s a hal
    exact ⟨s, (key s hs).1, (key s hs).2, hi, hv⟩
  · obtain ⟨s, hs, hi, hv⟩ := mem_statelessSpreadAlerts f now _ a h
    exact ⟨s, (key s hs).1, (key s hs).2, hi, hv⟩

/-- Concrete market batch for the C10 witness: one active stock with a 6%
variation next to a zero-volume stock with an extreme 50% variation. -/
def wStocks : List StockData :=
  [{ isin := "S1", valeur := "V1", quantite := 10, variation := 6 },
   { isin := "S0", valeur := "V0", quantite := 0, variation := 50 }]

/-- The price-anomaly alert detect_anomalies emits on wStocks. -/
def wPriceAlert : Alert :=
  { timestamp := "t", isin := "S1", valeur := "V1"
    anomaly_type := "PRICE_ANOMALY", severity := "WARNING"
    message := "Prix anormal: HAUSSE de 6/1%"
    current_value := 6, threshold := 5
    details := "Réf=0/1 Dernier=0/1 P.Haut=0/1 P.Bas=0/1" }

theorem stateless_zero_volume_filter_witness :
    ∃ s, s ∈ wStocks ∧ 0 < s.quantite
      ∧ wPriceAlert.isin = s.isin ∧ wPriceAlert.valeur = s.valeur :=
  stateless_zero_volume_filter (fun _ => 0) "t" wStocks wPriceAlert (by decide)

-- ─── Alerts carry the identity of the snapshot they were computed from ──

theorem detectVolumeSpike_isin (f : ℚ → ℚ) (cur : StockSnapshot)
    (hist : List StockSnapshot) :
    ∀ a ∈ detectVolumeSpike f cur hist, a.isin = cur.isin := by
  intro a h
  simp only [detectVolumeSpike] at h
  split_ifs at h <;> first | (simp only [List.mem_singleton] at h; simp [h]) | simp at h

theorem detectPriceAnomaly_isin (cur : StockSnapshot)
    (hist : List StockSnapshot) :
    ∀ a ∈ detectPriceAnomaly cur hist, a.isin = cur.isin := by
  intro a h
  simp only [detectPriceAnomaly, List.mem_append] at h
  rcases h with h | h
  · split_ifs at h <;> first | (simp only [List.mem_singleton] at h; simp [h]) | simp at h
  · split_ifs at h with h1
    · rcases hsec : secondLast hist with _ | prev <;> rw [hsec] at h <;> dsimp only at h
      · simp at h
      · split_ifs at h <;> first | (simp only [List.mem_singleton] at h; simp [h]) | simp at h
    · simp at h

theorem engineImbAlerts_isin (cur : StockSnapshot) :
    ∀ a ∈ engineImbAlerts cur, a.isin = cur.isin := by
  intro a h
  simp only [engineImbAlerts] at h
  split_ifs at h <;>
    first
      | (simp only [List.mem_singleton] at h
         simp [h, venteImbAlert, achatImbAlert])
      | simp at h

theorem engineSpreadAlerts_isin (f : ℚ → ℚ) (cur : StockSnapshot)
    (hist : List StockSnapshot) :
    ∀ a ∈ engineSpreadAlerts f cur hist, a.isin = cur.isin := by
  intro a h
  simp only [engineSpreadAlerts] at h
  split_ifs at h <;> first | (simp only [List.mem_singleton] at h; simp [h]) | simp at h

theorem engineSpoofAlerts_isin (cur : StockSnapshot)
    (hist : List StockSnapshot) :
    ∀ a ∈ engineSpoofAlerts cur hist, a.isin = cur.isin := by
  intro a h
  have side : ∀ (sd : String) (cq pq : ℤ), ∀ b ∈ engineSpoofSide cur sd cq pq,
      b.isin = cur.isin := by
    intro sd cq pq b hb
    simp only [engineSpoofSide] at hb
    split_ifs at hb <;>
      first | (simp only [List.mem_singleton] at hb; simp [hb]) | simp at hb
  simp only [engineSpoofAlerts] at h
  split_ifs at h with h1
  · rcases hsec : secondLast hist with _ | prev <;> rw [hsec] at h <;> dsimp only at h
    · simp at h
    · rcases List.mem_append.mp h with h' | h'
      · exact side _ _ _ a h'
      · exact side _ _ _ a h'
  · simp at h

theorem detectorSet_isin (f : ℚ → ℚ) (cur : StockSnapshot)
    (hist : List StockSnapshot) :
    ∀ a ∈ detectorSet f cur hist, a.isin = cur.isin := by
  intro a h
  simp only [detectorSet, detectSuspicious, List.append_assoc, List.mem_append] at h
  rcases h with h | h | h | h | h
  · exact detectVolumeSpike_isin f cur hist a h
  · exact detectPriceAnomaly_isin cur hist a h
  · exact engineImbAlerts_isin cur a h
  · exact engineSpreadAlerts_isin f cur hist a h
  · exact engineSpoofAlerts_isin cur hist a h

-- ─── C1: warm-up invariant ─────────────────────────────────────────────

/-- Detector evaluation inside one ingest call produces no alert for a
security whose post-recording history is still shorter than MIN_HISTORY,
and none at all while the cycle counter is below MIN_HISTORY. -/
theorem ingest_no_alerts_short (f : ℚ → ℚ) (st : EngineState)
    (b : List StockSnapshot) (i : String)
    (h : (ingest f st b).2.snapshot_count < MIN_HISTORY
       ∨ ((ingest f st b).2.history i).length < MIN_HISTORY) :
    (ingest f st b).1.filter (fun a => decide (a.isin = i)) = [] := by
  rcases h with h | h
  · have : ¬ MIN_HISTORY ≤ st.snapshot_count + 1 := by
      simpa [ingest] using Nat.not_le_of_lt h
    simp [ingest, this]
  · by_cases hc : MIN_HISTORY ≤ st.snapshot_count + 1
    · simp only [ingest, hc, if_true]
      rw [List.filter_flatten]
      rw [List.flatten_eq_nil_iff]
      intro l hl
      rw [List.map_map, List.mem_map] at hl
      obtain ⟨snap, hsnap, rfl⟩ := hl
      by_cases hi : snap.isin = i
      · have hlen : ¬ MIN_HISTORY ≤ ((recordAll st.history b) snap.isin).length := by
          rw [hi]
          exact Nat.not_le_of_lt (by simpa [ingest] using h)
        simp [hlen]
      · by_cases hlen : MIN_HISTORY ≤ ((recordAll st.history b) snap.isin).length
        · simp only [Function.comp, hlen, if_true]
          rw [List.filter_eq_nil_iff]
          intro a ha
          rw [decide_eq_true_eq]
          intro hai
          exact hi ((detectorSet_isin f snap _ a ha ▸ hai : snap.isin = i))
        · simp [Function.comp, hlen]
    · simp [ingest, hc]

/-- C1: starting from a fresh engine, for every sequence of ingest calls
and every security, while the cycle counter is below MIN_HISTORY or that
security's buffered history is shorter than MIN_HISTORY, the ingest call
returns no alerts for that security, however extreme the snapshots. -/
theorem warmup_no_alerts (f : ℚ → ℚ) (bss : List (List StockSnapshot))
    (b : List StockSnapshot) (i : String)
    (h : (ingest f (runBatches f bss) b).2.snapshot_count < MIN_HISTORY
       ∨ ((ingest f (runBatches f bss) b).2.history i).length < MIN_HISTORY) :
    (ingest f (runBatches f bss) b).1.filter (fun a => decide (a.isin = i)) = [] :=
  ingest_no_alerts_short f (runBatches f bss) b i h

/-- Witness for C1: the very first ingest call of a fresh engine (cycle
counter 1 < 3) returns no alerts for security A despite an extreme
snapshot. -/
theorem warmup_no_alerts_witness :
    ((ingest (fun _ => 0) (runBatches (fun _ => 0) []) 
        [{ isin := "A", valeur := "Alpha", volume := 1000000, change := 50 }]).2.snapshot_count < MIN_HISTORY
      ∨ (((ingest (fun _ => 0) (runBatches (fun _ => 0) [])
        [{ isin := "A", valeur := "Alpha", volume := 1000000, change := 50 }]).2.history "A").length < MIN_HISTORY))
    ∧ (ingest (fun _ => 0) (runBatches (fun _ => 0) [])
        [{ isin := "A", valeur := "Alpha", volume := 1000000, change := 50 }]).1.filter
          (fun a => decide (a.isin = "A")) = [] :=
  ⟨Or.inl (by decide),
   warmup_no_alerts (fun _ => 0) [] _ "A" (Or.inl (by decide))⟩

-- ─── C4: history capacity bound ────────────────────────────────────────

/-- Recording a batch updates security i by folding appendCap over exactly
the batch snapshots whose isin is i, in batch order. -/
theorem recordAll_eq (h : String → List StockSnapshot)
    (batch : List StockSnapshot) (i : String) :
    recordAll h batch i
      = (batch.filter (fun s => decide (s.isin = i))).foldl
          (appendCap HISTORY_CAP) (h i) := by
  induction batch generalizing h with
  | nil => rfl
  | cons s rest ih =>
      show recordAll
        (fun j => if j = s.isin then appendCap HISTORY_CAP (h s.isin) s else h j)
        rest i = _
      rw [ih]
      by_cases hi : s.isin = i
      · subst hi
        simp [List.filter_cons]
      · have hi' : ¬ i = s.isin := fun he => hi he.symm
        simp [List.filter_cons, hi, hi']

/-- All snapshots ever recorded for security i over a run, in order. -/
def snapsFor (i : String) (bss : List (List StockSnapshot)) :
    List StockSnapshot :=
  (bss.map (fun b => b.filter (fun s => decide (s.isin = i)))).flatten

/-- C4: after N ingest calls each containing exactly one snapshot for a
security, that security's buffer holds exactly min(N, 200) snapshots, and
it is the suffix of all recorded snapshots: the oldest were evicted first,
so the buffer never exceeds the capacity of 200. -/
theorem history_capacity_bound (f : ℚ → ℚ) (bss : List (List StockSnapshot))
    (i : String)
    (h : ∀ b ∈ bss, (b.filter (fun s => decide (s.isin = i))).length = 1) :
    ((runBatches f bss).history i).length = min bss.length HISTORY_CAP
    ∧ (runBatches f bss).history i
        = (snapsFor i bss).drop (bss.length - HISTORY_CAP) := by
  have hC : 0 < HISTORY_CAP := by decide
  induction bss using List.reverseRecOn with
  | nil => exact ⟨rfl, rfl⟩
  | append_singleton bss b ih =>
      have hb : (b.filter (fun s => decide (s.isin = i))).length = 1 :=
        h b (List.mem_append_right bss (List.mem_singleton_self b))
      have hprev : ∀ b' ∈ bss, (b'.filter (fun s => decide (s.isin = i))).length = 1 :=
        fun b' hb' => h b' (List.mem_append_left _ hb')
      obtain ⟨ihl, ihe⟩ := ih hprev
      obtain ⟨x, hx⟩ : ∃ x, b.filter (fun s => decide (s.isin = i)) = [x] :=
        List.length_eq_one.mp hb
      have hrun : runBatches f (bss ++ [b])
          = (ingest f (runBatches f bss) b).2 := by
        simp [runBatches, List.foldl_append]
      have hhist : (runBatches f (bss ++ [b])).history i
          = appendCap HISTORY_CAP ((runBatches f bss).history i) x := by
        rw [hrun]
        show recordAll (runBatches f bss).history b i = _
        rw [recordAll_eq, hx]
        rfl
      have hsnaps : snapsFor i (bss ++ [b]) = snapsFor i bss ++ [x] := by
        simp [snapsFor, hx]
      by_cases hcap : bss.length < HISTORY_CAP
      · have hlt : ((runBatches f bss).history i).length < HISTORY_CAP := by
          rw [ihl]; omega
        have happ : appendCap HISTORY_CAP ((runBatches f bss).history i) x
            = (runBatches f bss).history i ++ [x] := by
          simp [appendCap, hlt]
        constructor
        · rw [hhist, happ]
          simp only [List.length_append, List.length_singleton, ihl,
            List.length_append]
          omega
        · rw [hhist, happ, ihe, hsnaps]
          have h1 : bss.length - HISTORY_CAP = 0 := by omega
          have h2 : (bss ++ [b]).length - HISTORY_CAP = 0 := by
            simp only [List.length_append, List.length_singleton]
            omega
          rw [h1, h2]
          simp
      · have hfull : ((runBatches f bss).history i).length = HISTORY_CAP := by
          rw [ihl]; omega
        have happ : appendCap HISTORY_CAP ((runBatches f bss).history i) x
            = ((runBatches f bss).history i).drop 1 ++ [x] := by
          simp [appendCap, hfull]
        have hsl : (snapsFor i bss).length = bss.length := by
          have : ∀ l ∈ bss.map (fun b => b.filter (fun s => decide (s.isin = i))),
              l.length = 1 := by
            intro l hl
            rw [List.mem_map] at hl
            obtain ⟨b', hb', rfl⟩ := hl
            exact hprev b' hb'
          calc (snapsFor i bss).length
              = ((bss.map (fun b => b.filter (fun s => decide (s.isin = i)))).map
                  List.length).sum := by simp [snapsFor]
            _ = bss.length := by
                rw [List.map_map]
                have : (bss.map (List.length ∘ fun b =>
                    b.filter (fun s => decide (s.isin = i)))) = bss.map (fun _ => 1) := by
                  apply List.map_congr_left
                  intro b' hb'
                  exact hprev b' hb'
                rw [this]
                simp [List.map_const]
        constructor
        · rw [hhist, happ]
          simp only [List.length_append, List.length_drop, hfull,
            List.length_singleton]
          omega
        · rw [hhist, happ, ihe, hsnaps]
          rw [List.drop_drop]
          have hd : (bss ++ [b]).length - HISTORY_CAP
              = 1 + (bss.length - HISTORY_CAP) := by
            simp only [List.length_append, List.length_singleton]
            omega
          rw [hd]
          rw [List.drop_append_of_le_length (by rw [hsl]; omega)]
          rw [Nat.add_comm]

/-- Witness for C4: two single-snapshot ingest calls leave a history of
length min 2 200 = 2 for the security. -/
theorem history_capacity_bound_witness :
    (∀ b ∈ [[({ isin := "A" } : StockSnapshot)], [({ isin := "A" } : StockSnapshot)]],
        (b.filter (fun s => decide (s.isin = "A"))).length = 1)
    ∧ (((runBatches (fun _ => 0)
          [[({ isin := "A" } : StockSnapshot)], [({ isin := "A" } : StockSnapshot)]]).history "A").length
        = min 2 HISTORY_CAP) :=
  ⟨by decide,
   (history_capacity_bound (fun _ => 0)
      [[{ isin := "A" }], [{ isin := "A" }]] "A" (by decide)).1⟩


-- ─── C2: failure isolation in ingest (corrected) ───────────────────────

/-- Concrete pieces for exercising the exception path: a detector set that
throws on security A and returns an alert for any other security. -/
def c2snapA : StockSnapshot := { isin := "A", valeur := "Alpha" }

def c2snapB : StockSnapshot := { isin := "B", valeur := "Beta" }

def c2bAlert : Alert :=
  { timestamp := "t", isin := "B", valeur := "Beta"
    anomaly_type := "VOLUME_SPIKE", severity := "WARNING"
    message := "m", current_value := 0, threshold := 0 }

def c2det : StockSnapshot → List StockSnapshot → Except String (List Alert) :=
  fun s _ => if s.isin = "A" then .error "boom" else .ok [c2bAlert]

/-- Engine state after two warm-up cycles on securities A and B. -/
def c2state : EngineState :=
  runBatches (fun _ => 0) [[c2snapA, c2snapB], [c2snapA, c2snapB]]

/-- C2 counterexample: on the third cycle (counter 3, both histories of
length 3) a detector error on security A makes ingest propagate the error:
although security B's detector evaluation on its recorded history would
return an alert, the call returns the error and appends no alert at all,
so the batch is aborted rather than logged-and-skipped. -/
theorem ingest_error_isolation_cex :
    (ingestE c2det c2state [c2snapA, c2snapB]).2 = .error "boom"
    ∧ c2det c2snapB ((ingestE c2det c2state [c2snapA, c2snapB]).1.history "B")
        = .ok [c2bAlert]
    ∧ MIN_HISTORY ≤ ((ingestE c2det c2state [c2snapA, c2snapB]).1.history "B").length
    ∧ (ingestE c2det c2state [c2snapA, c2snapB]).1.alerts = [] := by
  refine ⟨by rfl, by rfl, by decide, by rfl⟩

/-- C2 amended: if evaluating the detector set on some security of the
batch raises an error, ingest still records every snapshot of the batch
(recording precedes detection) and still increments the cycle counter, but
the error propagates out of the call: detector evaluation stops at the
failing security and no alerts — not even those of securities evaluated
earlier in the batch — are appended to the engine's alert list. -/
theorem ingest_error_propagates
    (det : StockSnapshot → List StockSnapshot → Except String (List Alert))
    (st : EngineState) (batch : List StockSnapshot) (e : String)
    (h : (ingestE det st batch).2 = .error e) :
    (ingestE det st batch).1
      = { history := recordAll st.history batch
          snapshot_count := st.snapshot_count + 1
          alerts := st.alerts } := by
  unfold ingestE at h ⊢
  rcases hm : (if MIN_HISTORY ≤ st.snapshot_count + 1
      then runDetsE det (recordAll st.history batch) batch
      else Except.ok []) with e' | new
  · rfl
  · rw [hm] at h
    simp at h

theorem ingest_error_propagates_witness :
    (ingestE c2det c2state [c2snapA, c2snapB]).2 = .error "boom"
    ∧ (ingestE c2det c2state [c2snapA, c2snapB]).1
        = { history := recordAll c2state.history [c2snapA, c2snapB]
            snapshot_count := c2state.snapshot_count + 1
            alerts := c2state.alerts } :=
  ⟨by rfl, ingest_error_propagates c2det c2state [c2snapA, c2snapB] "boom" (by rfl)⟩

-- ─── C7: order-imbalance antisymmetry and exclusivity ──────────────────

theorem engineImbAlerts_type (cur : StockSnapshot) :
    ∀ a ∈ engineImbAlerts cur, a.anomaly_type = "ORDER_IMBALANCE" := by
  intro a h
  simp only [engineImbAlerts] at h
  split_ifs at h <;>
    first
      | (simp only [List.mem_singleton] at h
         simp [h, venteImbAlert, achatImbAlert])
      | simp at h

theorem engineSpreadAlerts_type (f : ℚ → ℚ) (cur : StockSnapshot)
    (hist : List StockSnapshot) :
    ∀ a ∈ engineSpreadAlerts f cur hist, a.anomaly_type = "SPREAD_ANOMALY" := by
  intro a h
  simp only [engineSpreadAlerts] at h
  split_ifs at h <;> first | (simp only [List.mem_singleton] at h; simp [h]) | simp at h

theorem engineSpoofAlerts_type (cur : StockSnapshot)
    (hist : List StockSnapshot) :
    ∀ a ∈ engineSpoofAlerts cur hist, a.anomaly_type = "PATTERN_SUSPECT" := by
  intro a h
  have side : ∀ (sd : String) (cq pq : ℤ), ∀ b ∈ engineSpoofSide cur sd cq pq,
      b.anomaly_type = "PATTERN_SUSPECT" := by
    intro sd cq pq b hb
    simp only [engineSpoofSide] at hb
    split_ifs at hb <;>
      first | (simp only [List.mem_singleton] at hb; simp [hb]) | simp at hb
  simp only [engineSpoofAlerts] at h
  split_ifs at h with h1
  · rcases hsec : secondLast hist with _ | prev <;> rw [hsec] at h <;> dsimp only at h
    · simp at h
    · rcases List.mem_append.mp h with h' | h'
      · exact side _ _ _ a h'
      · exact side _ _ _ a h'
  · simp at h

/-- Within the full suspicious-pattern detector, the ORDER_IMBALANCE alerts
are exactly the imbalance block's output. -/
theorem suspicious_filter_imb (f : ℚ → ℚ) (cur : StockSnapshot)
    (hist : List StockSnapshot) :
    (detectSuspicious f cur hist).filter
        (fun a => decide (a.anomaly_type = "ORDER_IMBALANCE"))
      = engineImbAlerts cur := by
  unfold detectSuspicious
  rw [List.filter_append, List.filter_append]
  have h1 : (engineImbAlerts cur).filter
      (fun a => decide (a.anomaly_type = "ORDER_IMBALANCE")) = engineImbAlerts cur := by
    rw [List.filter_eq_self]
    intro a ha
    rw [decide_eq_true_eq]
    exact engineImbAlerts_type cur a ha
  have h2 : (engineSpreadAlerts f cur hist).filter
      (fun a => decide (a.anomaly_type = "ORDER_IMBALANCE")) = [] := by
    rw [List.filter_eq_nil_iff]
    intro a ha
    simp [engineSpreadAlerts_type f cur hist a ha]
  have h3 : (engineSpoofAlerts cur hist).filter
      (fun a => decide (a.anomaly_type = "ORDER_IMBALANCE")) = [] := by
    rw [List.filter_eq_nil_iff]
    intro a ha
    simp [engineSpoofAlerts_type cur hist a ha]
  rw [h1, h2, h3]
  simp

/-- The two pressure ratios cannot both exceed the threshold. -/
theorem ratio_exclusive (a b : ℚ) (ha : 0 < a) (hb : 0 < b)
    (h : ORDER_IMBALANCE_LIMIT < b / a) : ¬ ORDER_IMBALANCE_LIMIT < a / b := by
  have h5 : ORDER_IMBALANCE_LIMIT = 5 := rfl
  rw [h5] at h ⊢
  rw [lt_div_iff₀ ha] at h
  rw [not_lt, div_le_iff₀ hb]
  nlinarith

/-- Snapshot with the best-ask and best-bid quantities exchanged. -/
def swapQty (cur : StockSnapshot) : StockSnapshot :=
  { cur with ask_qty := cur.bid_qty, bid_qty := cur.ask_qty }

/-- Stateless stock with the two order-book quantities exchanged. -/
def swapStock (s : StockData) : StockData :=
  { s with qty_a := s.qty_v, qty_v := s.qty_a }

/-- C7: with both book quantities positive, at most one ORDER_IMBALANCE
alert fires per snapshot (in the engine's suspicious-pattern detector and
in the stateless check); the sell-pressure (VENTE) label fires exactly when
the bid/ask quantity ratio exceeds ORDER_IMBALANCE_RATIO, the buy-pressure
(ACHAT) label exactly when the inverse ratio does, the two conditions are
mutually exclusive, and swapping the ask and bid quantities swaps which
label fires. -/
theorem order_imbalance_antisymmetric (f : ℚ → ℚ) (cur : StockSnapshot)
    (hist : List StockSnapshot) (now : String) (s : StockData)
    (ha : 0 < cur.ask_qty) (hb : 0 < cur.bid_qty)
    (hsa : 0 < s.qty_a) (hsv : 0 < s.qty_v) :
    ((detectSuspicious f cur hist).filter
        (fun a => decide (a.anomaly_type = "ORDER_IMBALANCE"))
      = engineImbAlerts cur)
    ∧ (engineImbAlerts cur).length ≤ 1
    ∧ (statelessImbAlerts now s).length ≤ 1
    ∧ (engineImbAlerts cur
        = if ORDER_IMBALANCE_LIMIT < (cur.bid_qty : ℚ) / (cur.ask_qty : ℚ)
          then [venteImbAlert cur]
          else if ORDER_IMBALANCE_LIMIT < (cur.ask_qty : ℚ) / (cur.bid_qty : ℚ)
          then [achatImbAlert cur] else [])
    ∧ (engineImbAlerts (swapQty cur)
        = if ORDER_IMBALANCE_LIMIT < (cur.ask_qty : ℚ) / (cur.bid_qty : ℚ)
          then [venteImbAlert (swapQty cur)]
          else if ORDER_IMBALANCE_LIMIT < (cur.bid_qty : ℚ) / (cur.ask_qty : ℚ)
          then [achatImbAlert (swapQty cur)] else [])
    ∧ ¬ (ORDER_IMBALANCE_LIMIT < (cur.bid_qty : ℚ) / (cur.ask_qty : ℚ)
        ∧ ORDER_IMBALANCE_LIMIT < (cur.ask_qty : ℚ) / (cur.bid_qty : ℚ))
    ∧ (statelessImbAlerts now s
        = if ORDER_IMBALANCE_LIMIT < (s.qty_v : ℚ) / (s.qty_a : ℚ)
          then [venteStatelessAlert now s]
          else if ORDER_IMBALANCE_LIMIT < (s.qty_a : ℚ) / (s.qty_v : ℚ)
          then [achatStatelessAlert now s] else [])
    ∧ (statelessImbAlerts now (swapStock s)
        = if ORDER_IMBALANCE_LIMIT < (s.qty_a : ℚ) / (s.qty_v : ℚ)
          then [venteStatelessAlert now (swapStock s)]
          else if ORDER_IMBALANCE_LIMIT < (s.qty_v : ℚ) / (s.qty_a : ℚ)
          then [achatStatelessAlert now (swapStock s)] else [])
    ∧ ¬ (ORDER_IMBALANCE_LIMIT < (s.qty_v : ℚ) / (s.qty_a : ℚ)
        ∧ ORDER_IMBALANCE_LIMIT < (s.qty_a : ℚ) / (s.qty_v : ℚ)) := by
  have haq : (0 : ℚ) < (cur.ask_qty : ℚ) := by exact_mod_cast ha
  have hbq : (0 : ℚ) < (cur.bid_qty : ℚ) := by exact_mod_cast hb
  have hsaq : (0 : ℚ) < (s.qty_a : ℚ) := by exact_mod_cast hsa
  have hsvq : (0 : ℚ) < (s.qty_v : ℚ) := by exact_mod_cast hsv
  have hmain : engineImbAlerts cur
      = if ORDER_IMBALANCE_LIMIT < (cur.bid_qty : ℚ) / (cur.ask_qty : ℚ)
        then [venteImbAlert cur]
        else if ORDER_IMBALANCE_LIMIT < (cur.ask_qty : ℚ) / (cur.bid_qty : ℚ)
        then [achatImbAlert cur] else [] := by
    rw [engineImbAlerts, if_pos ⟨ha, hb⟩]
  have hswap : engineImbAlerts (swapQty cur)
      = if ORDER_IMBALANCE_LIMIT < (cur.ask_qty : ℚ) / (cur.bid_qty : ℚ)
        then [venteImbAlert (swapQty cur)]
        else if ORDER_IMBALANCE_LIMIT < (cur.bid_qty : ℚ) / (cur.ask_qty : ℚ)
        then [achatImbAlert (swapQty cur)] else [] := by
    rw [engineImbAlerts, if_pos (⟨hb, ha⟩ : 0 < (swapQty cur).ask_qty ∧ 0 < (swapQty cur).bid_qty)]
    rfl
  have hsmain : statelessImbAlerts now s
      = if ORDER_IMBALANCE_LIMIT < (s.qty_v : ℚ) / (s.qty_a : ℚ)
        then [venteStatelessAlert now s]
        else if ORDER_IMBALANCE_LIMIT < (s.qty_a : ℚ) / (s.qty_v : ℚ)
        then [achatStatelessAlert now s] else [] := by
    rw [statelessImbAlerts, if_pos ⟨hsa, hsv⟩]
  have hsswap : statelessImbAlerts now (swapStock s)
      = if ORDER_IMBALANCE_LIMIT < (s.qty_a : ℚ) / (s.qty_v : ℚ)
        then [venteStatelessAlert now (swapStock s)]
        else if ORDER_IMBALANCE_LIMIT < (s.qty_v : ℚ) / (s.qty_a : ℚ)
        then [achatStatelessAlert now (swapStock s)] else [] := by
    rw [statelessImbAlerts, if_pos (⟨hsv, hsa⟩ : 0 < (swapStock s).qty_a ∧ 0 < (swapStock s).qty_v)]
    rfl
  refine ⟨suspicious_filter_imb f cur hist, ?_, ?_, hmain, hswap, ?_, hsmain, hsswap, ?_⟩
  · rw [hmain]; split_ifs <;> simp
  · rw [hsmain]; split_ifs <;> simp
  · rintro ⟨h1, h2⟩
    exact ratio_exclusive _ _ haq hbq h1 h2
  · rintro ⟨h1, h2⟩
    exact ratio_exclusive _ _ hsaq hsvq h1 h2

/-- Witness for C7 at ask_qty 100, bid_qty 600 (engine) and qty_a 100,
qty_v 600 (stateless). -/
theorem order_imbalance_antisymmetric_witness :
    ((detectSuspicious (fun _ => 0)
        ({ isin := "A", ask_qty := 100, bid_qty := 600 } : StockSnapshot) []).filter
        (fun a => decide (a.anomaly_type = "ORDER_IMBALANCE"))
      = engineImbAlerts { isin := "A", ask_qty := 100, bid_qty := 600 })
    ∧ (engineImbAlerts { isin := "A", ask_qty := 100, bid_qty := 600 }).length ≤ 1
    ∧ (statelessImbAlerts "t" { isin := "A", qty_a := 100, qty_v := 600 }).length ≤ 1
    ∧ (engineImbAlerts { isin := "A", ask_qty := 100, bid_qty := 600 }
        = if ORDER_IMBALANCE_LIMIT < ((600 : ℤ) : ℚ) / ((100 : ℤ) : ℚ)
          then [venteImbAlert { isin := "A", ask_qty := 100, bid_qty := 600 }]
          else if ORDER_IMBALANCE_LIMIT < ((100 : ℤ) : ℚ) / ((600 : ℤ) : ℚ)
          then [achatImbAlert { isin := "A", ask_qty := 100, bid_qty := 600 }] else []) := by
  obtain ⟨p1, p2, p3, p4, _⟩ :=
    order_imbalance_antisymmetric (fun _ => 0)
      ({ isin := "A", ask_qty := 100, bid_qty := 600 } : StockSnapshot) [] "t"
      ({ isin := "A", qty_a := 100, qty_v := 600 } : StockData)
      (by decide) (by decide) (by decide) (by decide)
  exact ⟨p1, p2, p3, p4⟩

-- ─── C5: volume-spike detector postcondition ───────────────────────────

/-- The valid deltas as exact values (input of mean/stdev). -/
def volDeltasQ (hist : List StockSnapshot) : List ℚ :=
  (deltasOf hist).map (fun d => ((d : ℤ) : ℚ))

/-- The delta mean the volume-spike detector computes. -/
def volMean (hist : List StockSnapshot) : ℚ := listMean (volDeltasQ hist)

/-- The delta standard deviation the detector computes (f is the square
root routine). -/
def volStd (f : ℚ → ℚ) (hist : List StockSnapshot) : ℚ :=
  f (sVar (volDeltasQ hist))

/-- The z-score of the current delta against the delta distribution. -/
def volZ (f : ℚ → ℚ) (cur : StockSnapshot) (hist : List StockSnapshot) : ℚ :=
  ((currentDelta cur hist : ℚ) - volMean hist) / volStd f hist

theorem volDiffs_length (hist : List StockSnapshot) :
    (volDiffs hist).length = hist.length - 1 := by
  induction hist with
  | nil => rfl
  | cons a t ih =>
      cases t with
      | nil => rfl
      | cons b rest =>
          show (volDiffs (a :: b :: rest)).length = (a :: b :: rest).length - 1
          simp only [volDiffs, List.length_cons]
          simp only [List.length_cons] at ih
          omega

/-- C5 amended: under the claim's hypotheses (at least MIN_HISTORY valid
deltas, a correct non-zero standard deviation, a positive current delta)
the detector emits exactly one VOLUME_SPIKE alert when z exceeds
VOLUME_SIGMA_THRESHOLD and none otherwise; the alert's severity is
CRITICAL for z > 5 and WARNING otherwise, and its reported threshold is
mean + 3·stdev rounded to two decimals — the rounding is what the original
claim misses. -/
theorem volume_spike_postcondition (f : ℚ → ℚ) (cur : StockSnapshot)
    (hist : List StockSnapshot)
    (hd : MIN_HISTORY ≤ (deltasOf hist).length)
    (_hsq : IsSqrtOf (volStd f hist) (sVar (volDeltasQ hist)))
    (hnz : volStd f hist ≠ 0)
    (hcd : 0 < currentDelta cur hist) :
    detectVolumeSpike f cur hist
      = if VOLUME_SIGMA_THRESHOLD < volZ f cur hist then
          [{ timestamp := cur.timestamp, isin := cur.isin, valeur := cur.valeur
             anomaly_type := "VOLUME_SPIKE"
             severity := if 5 < volZ f cur hist then "CRITICAL" else "WARNING"
             message := "Volume spike: " ++ fq (currentDelta cur hist : ℚ)
                          ++ " units (z=" ++ fq (volZ f cur hist) ++ "σ)"
             current_value := (currentDelta cur hist : ℚ)
             threshold := round2 (volMean hist
                            + VOLUME_SIGMA_THRESHOLD * volStd f hist)
             details := "Mean=" ++ fq (volMean hist) ++ " Std=" ++ fq (volStd f hist)
                          ++ " TotalVol=" ++ fq (cur.volume : ℚ) }]
        else [] := by
  simp only [volZ, volMean, volStd, volDeltasQ] at *
  have hm3 : MIN_HISTORY = 3 := rfl
  have h1 : ¬ hist.length < MIN_HISTORY + 1 := by
    have hv : (volDiffs hist).length = hist.length - 1 := volDiffs_length hist
    have hle : (deltasOf hist).length ≤ (volDiffs hist).length :=
      List.length_filter_le _ _
    omega
  have h2 : 2 ≤ (deltasOf hist).length := by omega
  simp only [detectVolumeSpike]
  rw [if_neg h1, if_neg (Nat.not_lt.mpr hd), if_pos h2, if_neg hnz,
    if_neg (not_le.mpr hcd)]

/-- History for the C5 counterexample: seventeen snapshots of security A
with session volumes 0,…,0,1 — sixteen deltas [0×15, 1], mean 1/16,
sample variance 1/16, stdev 1/4. -/
def c5snap (v : ℤ) : StockSnapshot := { isin := "A", valeur := "Alpha", volume := v }

def c5hist : List StockSnapshot := List.replicate 16 (c5snap 0) ++ [c5snap 1]

def c5cur : StockSnapshot := c5snap 1

/-- Exact square root on the one variance value used. -/
def c5f : ℚ → ℚ := fun q => if q = 1 / 16 then 1 / 4 else 0

/-- C5 counterexample: on this history (ending in the current snapshot) the
detector fires — z = 15/4 > 3 — but the emitted alert's threshold is
round(mean + 3·stdev, 2) = 0.81, not mean + 3·stdev = 13/16 = 0.8125, so
the claim's clause "reported threshold equals mean + 3·stdev" is false. -/
theorem volume_spike_threshold_cex :
    MIN_HISTORY ≤ (deltasOf c5hist).length
    ∧ IsSqrtOf (volStd c5f c5hist) (sVar (volDeltasQ c5hist))
    ∧ volStd c5f c5hist ≠ 0
    ∧ 0 < currentDelta c5cur c5hist
    ∧ (detectVolumeSpike c5f c5cur c5hist).map (fun a => a.threshold)
        = [81 / 100]
    ∧ volMean c5hist + VOLUME_SIGMA_THRESHOLD * volStd c5f c5hist = 13 / 16
    ∧ ((81 : ℚ) / 100) ≠ 13 / 16 := by
  have hd : deltasOf c5hist = [0, 0, 0, 0, 0, 0, 0, 0, 0, 0, 0, 0, 0, 0, 0, 1] := by
    decide
  have hcd : currentDelta c5cur c5hist = 1 := by decide
  have hlen : c5hist.length = 17 := by decide
  have hvar : sVar (volDeltasQ c5hist) = 1 / 16 := by
    simp only [volDeltasQ, hd]
    norm_num [sVar, listMean]
  have hstd : volStd c5f c5hist = 1 / 4 := by
    rw [volStd, hvar]
    norm_num [c5f]
  have hmean : volMean c5hist = 1 / 16 := by
    simp only [volMean, volDeltasQ, hd]
    norm_num [listMean]
  refine ⟨by decide, ?_, ?_, ?_, ?_, ?_, by norm_num⟩
  · rw [IsSqrtOf, hstd, hvar]
    norm_num
  · rw [hstd]
    norm_num
  · rw [hcd]
    norm_num
  · norm_num [detectVolumeSpike, hd, hcd, hlen, sVar, listMean, c5f, round2,
      roundHE, MIN_HISTORY, VOLUME_SIGMA_THRESHOLD]
  · rw [hmean, hstd]
    norm_num [VOLUME_SIGMA_THRESHOLD]

/-- Witness for the amended C5 theorem on a small non-firing history:
volumes 0,0,2,6 give deltas [0,2,4] (mean 2, variance 4, stdev 2), current
delta 4, z = 1 ≤ 3, so the detector returns no alert, as the postcondition
states. -/
def c5whist : List StockSnapshot :=
  [c5snap 0, c5snap 0, c5snap 2, c5snap 6]

def c5wf : ℚ → ℚ := fun q => if q = 4 then 2 else 0

theorem volume_spike_postcondition_witness :
    (MIN_HISTORY ≤ (deltasOf c5whist).length
      ∧ IsSqrtOf (volStd c5wf c5whist) (sVar (volDeltasQ c5whist))
      ∧ volStd c5wf c5whist ≠ 0
      ∧ 0 < currentDelta (c5snap 6) c5whist)
    ∧ detectVolumeSpike c5wf (c5snap 6) c5whist = [] := by
  have hd : deltasOf c5whist = [0, 2, 4] := by decide
  have hcd : currentDelta (c5snap 6) c5whist = 4 := by decide
  have hvar : sVar (volDeltasQ c5whist) = 4 := by
    simp only [volDeltasQ, hd]
    norm_num [sVar, listMean]
  have hstd : volStd c5wf c5whist = 2 := by
    rw [volStd, hvar]
    norm_num [c5wf]
  have hsq : IsSqrtOf (volStd c5wf c5whist) (sVar (volDeltasQ c5whist)) := by
    rw [IsSqrtOf, hstd, hvar]
    norm_num
  have hnz : volStd c5wf c5whist ≠ 0 := by
    rw [hstd]
    norm_num
  have hz : volZ c5wf (c5snap 6) c5whist = 1 := by
    rw [volZ, hcd, hstd]
    simp only [volMean, volDeltasQ, hd]
    norm_num [listMean]
  refine ⟨⟨by decide, hsq, hnz, by rw [hcd]; norm_num⟩, ?_⟩
  refine (volume_spike_postcondition c5wf (c5snap 6) c5whist
      (by decide) hsq hnz (by rw [hcd]; norm_num)).trans ?_
  rw [hz]
  norm_num [VOLUME_SIGMA_THRESHOLD]

-- ─── C6: monotonicity of the volume-spike z-score ──────────────────────

theorem sum_map_sub_sq (l : List ℚ) (t : ℚ) :
    (l.map (fun x => (x - t) ^ 2)).sum
      = (l.map (fun x => x ^ 2)).sum - 2 * t * l.sum + l.length * t ^ 2 := by
  induction l with
  | nil => simp
  | cons a tl ih =>
      simp only [List.map_cons, List.sum_cons, List.length_cons, ih,
        Nat.cast_add, Nat.cast_one]
      ring

/-- Sample variance in terms of the plain and squared sums. -/
theorem sVar_eq (l : List ℚ) (hne : l ≠ []) :
    sVar l = ((l.map (fun x => x ^ 2)).sum - l.sum ^ 2 / l.length)
              / ((l.length : ℚ) - 1) := by
  have hn : ((l.length : ℚ)) ≠ 0 := by
    have : 0 < l.length := List.length_pos.mpr hne
    exact_mod_cast this.ne'
  rw [sVar, listMean, sum_map_sub_sq]
  congr 1
  field_simp
  ring

/-- n·Σx² − (Σx)² is non-negative (Cauchy–Schwarz for the variance). -/
theorem card_mul_sumsq_sub_sq_nonneg (l : List ℚ) (hne : l ≠ []) :
    0 ≤ (l.length : ℚ) * (l.map (fun x => x ^ 2)).sum - l.sum ^ 2 := by
  have hn : (0 : ℚ) < (l.length : ℚ) := by
    exact_mod_cast List.length_pos.mpr hne
  have h1 : 0 ≤ (l.map (fun x => (x - l.sum / l.length) ^ 2)).sum := by
    apply List.sum_nonneg
    intro x hx
    rw [List.mem_map] at hx
    obtain ⟨y, _, rfl⟩ := hx
    positivity
  rw [sum_map_sub_sq] at h1
  have h2 : 0 ≤ (l.length : ℚ) *
      ((l.map (fun x => x ^ 2)).sum - 2 * (l.sum / l.length) * l.sum
        + l.length * (l.sum / l.length) ^ 2) :=
    mul_nonneg hn.le h1
  calc (0 : ℚ) ≤ _ := h2
    _ = (l.length : ℚ) * (l.map (fun x => x ^ 2)).sum - l.sum ^ 2 := by
        field_simp
        ring

/-- Core inequality: two z-score numerators a ≤ b and denominators with
C·s² = W + (numerator)², W ≥ 0, give a/s₁ ≤ b/s₂. -/
theorem zscore_mono_core (W a b s₁ s₂ C : ℚ) (hW : 0 ≤ W) (hC : 0 < C)
    (hab : a ≤ b) (h₁ : 0 < s₁) (h₂ : 0 < s₂)
    (e₁ : C * (s₁ * s₁) = W + a ^ 2) (e₂ : C * (s₂ * s₂) = W + b ^ 2) :
    a / s₁ ≤ b / s₂ := by
  rw [div_le_div_iff₀ h₁ h₂]
  rcases le_or_lt a 0 with ha | ha
  · rcases le_or_lt 0 b with hb | hb
    · exact le_trans (mul_nonpos_of_nonpos_of_nonneg ha h₂.le)
        (mul_nonneg hb h₁.le)
    · have ha2 : b ^ 2 ≤ a ^ 2 := by nlinarith
      have hkey : C * (a ^ 2 * s₂ ^ 2 - b ^ 2 * s₁ ^ 2) = W * (a ^ 2 - b ^ 2) := by
        linear_combination a ^ 2 * e₂ - b ^ 2 * e₁
      have hge : 0 ≤ a ^ 2 * s₂ ^ 2 - b ^ 2 * s₁ ^ 2 := by
        nlinarith [mul_nonneg hW (sub_nonneg.mpr ha2)]
      nlinarith [mul_pos (neg_pos.mpr hb) h₁, mul_nonneg (neg_nonneg.mpr ha) h₂.le]
  · have hb : 0 < b := lt_of_lt_of_le ha hab
    have ha2 : a ^ 2 ≤ b ^ 2 := by nlinarith
    have hkey : C * (b ^ 2 * s₁ ^ 2 - a ^ 2 * s₂ ^ 2) = W * (b ^ 2 - a ^ 2) := by
      linear_combination b ^ 2 * e₁ - a ^ 2 * e₂
    have hge : 0 ≤ b ^ 2 * s₁ ^ 2 - a ^ 2 * s₂ ^ 2 := by
      nlinarith [mul_nonneg hW (sub_nonneg.mpr ha2)]
    nlinarith [mul_pos ha h₂, mul_pos hb h₁]

theorem volDiffs_concat (l : List StockSnapshot) (p c : StockSnapshot) :
    volDiffs ((l ++ [p]) ++ [c])
      = volDiffs (l ++ [p]) ++ [c.volume - p.volume] := by
  induction l with
  | nil => rfl
  | cons a tl ih =>
      cases tl with
      | nil => rfl
      | cons b tl2 =>
          have step : ∀ (r : List StockSnapshot),
              volDiffs (a :: b :: r) = (b.volume - a.volume) :: volDiffs (b :: r) :=
            fun r => rfl
          calc volDiffs (((a :: b :: tl2) ++ [p]) ++ [c])
              = volDiffs (a :: b :: ((tl2 ++ [p]) ++ [c])) := by
                simp [List.cons_append]
            _ = (b.volume - a.volume) :: volDiffs (b :: ((tl2 ++ [p]) ++ [c])) :=
                step _
            _ = (b.volume - a.volume) :: volDiffs (((b :: tl2) ++ [p]) ++ [c]) := by
                simp [List.cons_append]
            _ = (b.volume - a.volume) :: (volDiffs ((b :: tl2) ++ [p])
                  ++ [c.volume - p.volume]) := by rw [ih]
            _ = volDiffs ((a :: b :: tl2) ++ [p]) ++ [c.volume - p.volume] := by
                simp [List.cons_append, step]

theorem deltasOf_concat (l : List StockSnapshot) (p c : StockSnapshot)
    (hd : 0 ≤ c.volume - p.volume) :
    deltasOf ((l ++ [p]) ++ [c])
      = deltasOf (l ++ [p]) ++ [c.volume - p.volume] := by
  rw [deltasOf, volDiffs_concat, List.filter_append]
  simp [deltasOf, hd]

theorem secondLast_concat (l : List StockSnapshot) (p c : StockSnapshot) :
    secondLast ((l ++ [p]) ++ [c]) = some p := by
  rw [secondLast, List.dropLast_concat, List.getLast?_concat]

theorem currentDelta_concat (l : List StockSnapshot) (p c : StockSnapshot) :
    currentDelta c ((l ++ [p]) ++ [c]) = c.volume - p.volume := by
  rw [currentDelta, if_pos (by simp), secondLast_concat]
  rfl

/-- Inversion of the volume-z computation: a computed z means every guard
passed and z is the detector's quotient. -/
theorem volumeZ_some_elim (f : ℚ → ℚ) (cur : StockSnapshot)
    (hist : List StockSnapshot) (z : ℚ)
    (h : volumeZ f cur hist = some z) :
    MIN_HISTORY ≤ (deltasOf hist).length
    ∧ volStd f hist ≠ 0
    ∧ 0 < currentDelta cur hist
    ∧ z = volZ f cur hist := by
  simp only [volumeZ] at h
  by_cases h1 : hist.length < MIN_HISTORY + 1
  · rw [if_pos h1] at h
    simp at h
  rw [if_neg h1] at h
  by_cases h2 : (deltasOf hist).length < MIN_HISTORY
  · rw [if_pos h2] at h
    simp at h
  rw [if_neg h2] at h
  have h3 : 2 ≤ (deltasOf hist).length := by
    have hm : MIN_HISTORY = 3 := rfl
    omega
  rw [if_pos h3] at h
  by_cases h4 : f (sVar ((deltasOf hist).map (fun d => ((d : ℤ) : ℚ)))) = 0
  · rw [if_pos h4] at h
    simp at h
  rw [if_neg h4] at h
  by_cases h5 : currentDelta cur hist ≤ 0
  · rw [if_pos h5] at h
    simp at h
  rw [if_neg h5] at h
  simp only [Option.some_inj] at h
  refine ⟨Nat.not_lt.mp h2, ?_, Int.not_le.mp h5, ?_⟩
  · rw [volStd, volDeltasQ]
    exact h4
  · rw [volZ, volMean, volStd, volDeltasQ]
    exact h.symm


/-- Per-scenario decomposition: a computed z on a history prefix ++ [cur]
yields a positive last delta, a fixed prior-delta sample of size k >= 2, a
positive standard deviation sigma with k²(k+1)·sigma² = (k+1)(kQ − S²) + (kd − S)²
over the prior sums S, Q, and z = ((kd − S)/sigma)/(k+1). -/
theorem volumeZ_side (f : ℚ → ℚ) (l : List StockSnapshot)
    (p s : StockSnapshot) (v : ℤ) (z : ℚ)
    (h : volumeZ f {s with volume := v}
        ((l ++ [p]) ++ [{s with volume := v}]) = some z)
    (hsq : IsSqrtOf (volStd f ((l ++ [p]) ++ [{s with volume := v}]))
        (sVar (volDeltasQ ((l ++ [p]) ++ [{s with volume := v}])))) :
    0 < v - p.volume
    ∧ 2 ≤ (deltasOf (l ++ [p])).length
    ∧ 0 < volStd f ((l ++ [p]) ++ [{s with volume := v}])
    ∧ ((((deltasOf (l ++ [p])).length : ℚ)) ^ 2 * (((deltasOf (l ++ [p])).length : ℚ) + 1))
        * (volStd f ((l ++ [p]) ++ [{s with volume := v}])
            * volStd f ((l ++ [p]) ++ [{s with volume := v}]))
      = (((deltasOf (l ++ [p])).length : ℚ) + 1)
          * (((deltasOf (l ++ [p])).length : ℚ)
              * (((deltasOf (l ++ [p])).map (fun d => ((d : ℤ) : ℚ))).map (fun x => x ^ 2)).sum
            - ((deltasOf (l ++ [p])).map (fun d => ((d : ℤ) : ℚ))).sum ^ 2)
        + (((deltasOf (l ++ [p])).length : ℚ) * ((v - p.volume : ℤ) : ℚ)
            - ((deltasOf (l ++ [p])).map (fun d => ((d : ℤ) : ℚ))).sum) ^ 2
    ∧ z = ((((deltasOf (l ++ [p])).length : ℚ) * ((v - p.volume : ℤ) : ℚ)
            - ((deltasOf (l ++ [p])).map (fun d => ((d : ℤ) : ℚ))).sum)
          / volStd f ((l ++ [p]) ++ [{s with volume := v}]))
        / (((deltasOf (l ++ [p])).length : ℚ) + 1) := by
  obtain ⟨hm, hstd, hcd, hz⟩ := volumeZ_some_elim f _ _ z h
  have hcdv : currentDelta ({s with volume := v})
      ((l ++ [p]) ++ [{s with volume := v}]) = v - p.volume := by
    rw [currentDelta_concat]
  have hd0 : 0 < v - p.volume := by rw [hcdv] at hcd; exact hcd
  have hdel : deltasOf ((l ++ [p]) ++ [{s with volume := v}])
      = deltasOf (l ++ [p]) ++ [v - p.volume] :=
    deltasOf_concat l p ({s with volume := v}) hd0.le
  have hlen1 : (deltasOf ((l ++ [p]) ++ [{s with volume := v}])).length
      = (deltasOf (l ++ [p])).length + 1 := by
    rw [hdel]; simp
  have hk2 : 2 ≤ (deltasOf (l ++ [p])).length := by
    have hm3 : MIN_HISTORY = 3 := rfl
    omega
  have hσpos : 0 < volStd f ((l ++ [p]) ++ [{s with volume := v}]) :=
    lt_of_le_of_ne hsq.1 (Ne.symm hstd)
  have hdq : volDeltasQ ((l ++ [p]) ++ [{s with volume := v}])
      = (deltasOf (l ++ [p])).map (fun d => ((d : ℤ) : ℚ))
          ++ [((v - p.volume : ℤ) : ℚ)] := by
    rw [volDeltasQ, hdel, List.map_append]
    rfl
  have hkq0 : (0 : ℚ) < ((deltasOf (l ++ [p])).length : ℚ) := by
    exact_mod_cast lt_of_lt_of_le (by norm_num) hk2
  have hkq10 : (0 : ℚ) < ((deltasOf (l ++ [p])).length : ℚ) + 1 := by positivity
  have hvar : sVar (volDeltasQ ((l ++ [p]) ++ [{s with volume := v}]))
      = ((((deltasOf (l ++ [p])).map (fun d => ((d : ℤ) : ℚ))).map (fun x => x ^ 2)).sum
          + ((v - p.volume : ℤ) : ℚ) ^ 2
        - (((deltasOf (l ++ [p])).map (fun d => ((d : ℤ) : ℚ))).sum
            + ((v - p.volume : ℤ) : ℚ)) ^ 2
          / (((deltasOf (l ++ [p])).length : ℚ) + 1))
      / ((deltasOf (l ++ [p])).length : ℚ) := by
    rw [hdq, sVar_eq _ (by simp)]
    simp only [List.map_append, List.sum_append, List.length_append,
      List.map_cons, List.map_nil, List.sum_cons, List.sum_nil,
      List.length_cons, List.length_nil, List.length_map]
    push_cast
    rw [add_sub_cancel_right]
    simp only [add_zero]
  refine ⟨hd0, hk2, hσpos, ?_, ?_⟩
  · rw [hsq.2, hvar]
    field_simp
    ring
  · rw [hz, volZ, hcdv, volMean, hdq, listMean]
    simp only [List.sum_append, List.length_append, List.sum_cons,
      List.sum_nil, List.length_cons, List.length_nil, List.length_map]
    push_cast
    have hσne : volStd f ((l ++ [p]) ++ [{s with volume := v}]) ≠ 0 :=
      hσpos.ne'
    field_simp
    ring

/-- C6: volume-spike z-score monotonicity.  Fix the earlier snapshots and
raise only the current snapshot's volume (hence its volume delta): whenever
the detector computes a z-score in both scenarios (standard deviation read
as a true square root), the z-score never decreases. -/
theorem volume_z_monotone (f : ℚ → ℚ) (l : List StockSnapshot)
    (p s : StockSnapshot) (v₁ v₂ : ℤ) (z₁ z₂ : ℚ)
    (hv : v₁ ≤ v₂)
    (hsq₁ : IsSqrtOf (volStd f ((l ++ [p]) ++ [{s with volume := v₁}]))
        (sVar (volDeltasQ ((l ++ [p]) ++ [{s with volume := v₁}]))))
    (hsq₂ : IsSqrtOf (volStd f ((l ++ [p]) ++ [{s with volume := v₂}]))
        (sVar (volDeltasQ ((l ++ [p]) ++ [{s with volume := v₂}]))))
    (h₁ : volumeZ f {s with volume := v₁}
        ((l ++ [p]) ++ [{s with volume := v₁}]) = some z₁)
    (h₂ : volumeZ f {s with volume := v₂}
        ((l ++ [p]) ++ [{s with volume := v₂}]) = some z₂) :
    z₁ ≤ z₂ := by
  obtain ⟨hd1, hk2, hσ1, he1, hz1⟩ := volumeZ_side f l p s v₁ z₁ h₁ hsq₁
  obtain ⟨hd2, _, hσ2, he2, hz2⟩ := volumeZ_side f l p s v₂ z₂ h₂ hsq₂
  have hkq0 : (0 : ℚ) < ((deltasOf (l ++ [p])).length : ℚ) := by
    exact_mod_cast lt_of_lt_of_le (by norm_num) hk2
  have hkq10 : (0 : ℚ) < ((deltasOf (l ++ [p])).length : ℚ) + 1 := by positivity
  have hne : (deltasOf (l ++ [p])).map (fun d => ((d : ℤ) : ℚ)) ≠ [] := by
    intro hh
    have hlm := congrArg List.length hh
    rw [List.length_map] at hlm
    simp only [List.length_nil] at hlm
    omega
  have hW0 : 0 ≤ ((deltasOf (l ++ [p])).length : ℚ)
      * (((deltasOf (l ++ [p])).map (fun d => ((d : ℤ) : ℚ))).map (fun x => x ^ 2)).sum
      - ((deltasOf (l ++ [p])).map (fun d => ((d : ℤ) : ℚ))).sum ^ 2 := by
    have := card_mul_sumsq_sub_sq_nonneg
      ((deltasOf (l ++ [p])).map (fun d => ((d : ℤ) : ℚ))) hne
    rwa [List.length_map] at this
  have hW : 0 ≤ (((deltasOf (l ++ [p])).length : ℚ) + 1)
      * (((deltasOf (l ++ [p])).length : ℚ)
          * (((deltasOf (l ++ [p])).map (fun d => ((d : ℤ) : ℚ))).map (fun x => x ^ 2)).sum
        - ((deltasOf (l ++ [p])).map (fun d => ((d : ℤ) : ℚ))).sum ^ 2) :=
    mul_nonneg hkq10.le hW0
  have hC : (0 : ℚ) < (((deltasOf (l ++ [p])).length : ℚ)) ^ 2
      * (((deltasOf (l ++ [p])).length : ℚ) + 1) := by positivity
  have hab : ((deltasOf (l ++ [p])).length : ℚ) * ((v₁ - p.volume : ℤ) : ℚ)
        - ((deltasOf (l ++ [p])).map (fun d => ((d : ℤ) : ℚ))).sum
      ≤ ((deltasOf (l ++ [p])).length : ℚ) * ((v₂ - p.volume : ℤ) : ℚ)
        - ((deltasOf (l ++ [p])).map (fun d => ((d : ℤ) : ℚ))).sum := by
    have hd : ((v₁ - p.volume : ℤ) : ℚ) ≤ ((v₂ - p.volume : ℤ) : ℚ) := by
      exact_mod_cast sub_le_sub_right hv p.volume
    exact sub_le_sub_right (mul_le_mul_of_nonneg_left hd hkq0.le) _
  have hcore := zscore_mono_core _ _ _ _ _ _ hW hC hab hσ1 hσ2 he1 he2
  rw [hz1, hz2]
  exact (div_le_div_iff_of_pos_right hkq10).mpr hcore

/-- Witness data for C6: volumes 0,0,2 followed by a current snapshot of
volume 3 (delta 1, z = 0) or volume 6 (delta 4, z = 1). -/
def c6l : List StockSnapshot := [c5snap 0, c5snap 0]

def c6p : StockSnapshot := c5snap 2

def c6f : ℚ → ℚ := fun q => if q = 1 then 1 else if q = 4 then 2 else 0

def c6cur1 : StockSnapshot := { c5snap 0 with volume := (3 : ℤ) }

def c6cur2 : StockSnapshot := { c5snap 0 with volume := (6 : ℤ) }

def c6hist1 : List StockSnapshot := (c6l ++ [c6p]) ++ [c6cur1]

def c6hist2 : List StockSnapshot := (c6l ++ [c6p]) ++ [c6cur2]

theorem volume_z_monotone_witness :
    ((3 : ℤ) ≤ 6)
    ∧ IsSqrtOf (volStd c6f c6hist1) (sVar (volDeltasQ c6hist1))
    ∧ IsSqrtOf (volStd c6f c6hist2) (sVar (volDeltasQ c6hist2))
    ∧ volumeZ c6f c6cur1 c6hist1 = some 0
    ∧ volumeZ c6f c6cur2 c6hist2 = some 1
    ∧ (0 : ℚ) ≤ 1 := by
  have hd1 : deltasOf c6hist1 = [0, 2, 1] := by decide
  have hd2 : deltasOf c6hist2 = [0, 2, 4] := by decide
  have h1 : volumeZ c6f c6cur1 c6hist1 = some 0 := by
    have hcd : currentDelta c6cur1 c6hist1 = 1 := by decide
    have hlen : c6hist1.length = 4 := by decide
    norm_num [volumeZ, hd1, hcd, hlen, sVar, listMean, c6f, MIN_HISTORY]
  have h2 : volumeZ c6f c6cur2 c6hist2 = some 1 := by
    have hcd : currentDelta c6cur2 c6hist2 = 4 := by decide
    have hlen : c6hist2.length = 4 := by decide
    norm_num [volumeZ, hd2, hcd, hlen, sVar, listMean, c6f, MIN_HISTORY]
  have hsq1 : IsSqrtOf (volStd c6f c6hist1) (sVar (volDeltasQ c6hist1)) := by
    have hvar : sVar (volDeltasQ c6hist1) = 1 := by
      simp only [volDeltasQ, hd1]
      norm_num [sVar, listMean]
    rw [IsSqrtOf, volStd, hvar]
    norm_num [c6f]
  have hsq2 : IsSqrtOf (volStd c6f c6hist2) (sVar (volDeltasQ c6hist2)) := by
    have hvar : sVar (volDeltasQ c6hist2) = 4 := by
      simp only [volDeltasQ, hd2]
      norm_num [sVar, listMean]
    rw [IsSqrtOf, volStd, hvar]
    norm_num [c6f]
  refine ⟨by decide, hsq1, hsq2, h1, h2, ?_⟩
  exact volume_z_monotone c6f c6l c6p (c5snap 0) 3 6 0 1 (by decide)
    hsq1 hsq2 h1 h2
